import Mathlib

set_option maxHeartbeats 1000000
set_option linter.unusedVariables false

/-!
Verification development for the spot-rebalancer repository.

Shallow embedding of the core components:
* `src/bot/core/rebalance_policy.py` (`RebalancePolicy`)
* `src/bot/core/trend_bias.py` (`EmaTrendBias`)
* `src/bot/core/delta_engine.py` (`DeltaEngine`)
* `src/bot/core/recent_fills.py` (`RecentFillsAnchor`)
* `src/bot/core/execution_spot.py` (`SpotExecutionEngine`)

Python floats are modelled as rationals (`ℚ`); the arithmetic operations in
the claims under study (negation, comparison, max/min clamping, sums and
exact products/quotients) are embedded as exact rational arithmetic.
Python exceptions are modelled with `Except`/`Option`; a Python function
that swallows exceptions becomes a total Lean function on those values.
-/

/-! ## rebalance_policy.py -/

/-- Embeds the `Thresholds` dataclass: `units` is the string `"base"` or
`"percent"`, `soft` and `hard` are the configured threshold magnitudes. -/
structure Thresholds where
  units : String
  soft : ℚ
  hard : ℚ
deriving DecidableEq

/-- The immutable configuration part of Python's `RebalancePolicy`.
`partRatio` embeds the source field `partial_ratio` (renamed).  The
EMA-opportunistic-rebalance fields (`ema_config`, `_last_ema_rebalance_time`)
are not modelled: no claim touches `check_ema_rebalance_opportunity`. -/
structure RebalancePolicy where
  th : Thresholds
  partRatio : ℚ
  hysteresis_fraction : ℚ
deriving DecidableEq

/-- The mutable hysteresis state retained by `RebalancePolicy` across calls:
`_last_action_threshold_used_abs` and `_last_action_side` (+1 sell, -1 buy). -/
structure PolicyState where
  last_action_threshold_used_abs : Option ℚ
  last_action_side : Option ℤ
deriving DecidableEq

/-- `max(0.0, min(1.0, x))` as used in `RebalancePolicy.__init__`. -/
def clamp01 (x : ℚ) : ℚ := max 0 (min 1 x)

/-- Embeds `RebalancePolicy.__init__`: both `partial_ratio` and
`hysteresis_fraction` are clamped into `[0, 1]`; the hysteresis state starts
as `None`/`None` (returned separately since the embedding keeps state
explicit). -/
def mkRebalancePolicy (th : Thresholds) (partRatio hysteresis_fraction : ℚ) :
    RebalancePolicy :=
  { th := th
    partRatio := clamp01 partRatio
    hysteresis_fraction := clamp01 hysteresis_fraction }

/-- The freshly constructed hysteresis state (`None`, `None`). -/
def initialPolicyState : PolicyState :=
  { last_action_threshold_used_abs := none, last_action_side := none }

/-- Embeds `RebalancePolicy._to_base_units`: identity for base units,
otherwise `(value * spot_notional_quote) / max(mark_price, 1e-12)`. -/
def toBaseUnits (p : RebalancePolicy)
    (value spot_notional_quote mark_price : ℚ) : ℚ :=
  if p.th.units = "base" then value
  else (value * spot_notional_quote) / max mark_price (1 / 10 ^ 12)

/-- Embeds `RebalancePolicy.compute_effective_thresholds`. -/
def RebalancePolicy.compute_effective_thresholds (p : RebalancePolicy)
    (spot_notional_quote mark_price combined_bias bias_strength : ℚ) :
    ℚ × ℚ :=
  let base_soft := toBaseUnits p p.th.soft spot_notional_quote mark_price
  let base_hard := toBaseUnits p p.th.hard spot_notional_quote mark_price
  let bs := max 0 (min 1 bias_strength)
  let cb := max (-1) (min 1 combined_bias)
  let eff_soft := base_soft * (1 + bs * cb)
  let eff_hard := base_hard * (1 + (1 / 2) * bs * cb)
  let eff_soft_f := max 0 eff_soft
  let eff_hard_f := max eff_soft_f eff_hard
  (eff_soft_f, eff_hard_f)

/-- `side_needed = 1 if gap > 0 else -1 if gap < 0 else 0`. -/
def sideNeeded (gap : ℚ) : ℤ :=
  if 0 < gap then 1 else if gap < 0 then -1 else 0

/-- The decision dict returned by `RebalancePolicy.decide`:
`action` is the string `"none"`, `"partial"` or `"full"`. -/
structure Decision where
  action : String
  target_trade_base : ℚ
deriving DecidableEq

/-- The hysteresis gate of `RebalancePolicy.decide`: true when both state
fields are set, the needed side is nonzero and opposite to the last action's
side, and `|gap|` is below `hysteresis_fraction * last_threshold`. -/
def hystSuppressed (p : RebalancePolicy) (s : PolicyState) (gap : ℚ) : Bool :=
  match s.last_action_threshold_used_abs, s.last_action_side with
  | some t, some ls =>
      (sideNeeded gap != 0) && (sideNeeded gap == -ls) &&
        decide (|gap| < p.hysteresis_fraction * t)
  | _, _ => false

/-- The threshold cascade of `RebalancePolicy.decide` (lines after the
hysteresis gate): hard breach, then soft breach, then no action. -/
def thresholdDecide (p : RebalancePolicy) (s : PolicyState)
    (gap eff_soft eff_hard : ℚ) : Decision × PolicyState :=
  if eff_hard ≤ |gap| ∧ 0 < eff_hard then
    ({ action := "full", target_trade_base := -gap },
     { last_action_threshold_used_abs := some eff_hard,
       last_action_side := some (sideNeeded gap) })
  else if eff_soft ≤ |gap| ∧ 0 < eff_soft then
    ({ action := "partial", target_trade_base := -p.partRatio * gap },
     { last_action_threshold_used_abs := some eff_soft,
       last_action_side := some (sideNeeded gap) })
  else
    ({ action := "none", target_trade_base := 0 }, s)

/-- Embeds `RebalancePolicy.decide`, with the mutable hysteresis state made
explicit: returns the decision together with the updated state. -/
def RebalancePolicy.decide (p : RebalancePolicy) (s : PolicyState)
    (delta_gap_base eff_soft eff_hard : ℚ) : Decision × PolicyState :=
  if hystSuppressed p s delta_gap_base then
    ({ action := "none", target_trade_base := 0 }, s)
  else
    thresholdDecide p s delta_gap_base eff_soft eff_hard

/-! ## trend_bias.py -/

/-- Embeds the `EmaConfig` dataclass. -/
structure EmaConfig where
  fast_period : ℕ
  slow_period : ℕ
  slope_lookback_s : ℤ
  trend_threshold_pct : ℚ
deriving DecidableEq

/-- Embeds the mutable state of `EmaTrendBias`. -/
structure EmaTrendBias where
  cfg : EmaConfig
  ema_fast : Option ℚ
  ema_slow : Option ℚ
  last_close : Option ℚ
  last_ts : Option ℤ
  prev_ema_fast : Option ℚ
  prev_ema_slow : Option ℚ
deriving DecidableEq

/-- A fresh `EmaTrendBias` (all state fields `None`). -/
def mkEmaTrendBias (cfg : EmaConfig) : EmaTrendBias :=
  { cfg := cfg, ema_fast := none, ema_slow := none, last_close := none,
    last_ts := none, prev_ema_fast := none, prev_ema_slow := none }

/-- The EMA smoothing constant `2 / (period + 1)`. -/
def emaAlpha (period : ℕ) : ℚ := 2 / (period + 1)

/-- One step of the EMA recursion: `price * a + ema * (1 - a)`. -/
def emaStep (a price ema : ℚ) : ℚ := price * a + ema * (1 - a)

/-- The SMA seed `sum(closes[:period]) / period` used by `initialize`. -/
def smaSeed (closes : List ℚ) (period : ℕ) : ℚ :=
  (closes.take period).sum / period

/-- Embeds `EmaTrendBias.initialize` (the Lean name avoids a reserved word):
no-op unless at least `max(fast_period, slow_period)` closes are supplied;
otherwise both EMAs are seeded by SMA over each period's first closes and
then advanced by the EMA recursion over `closes[max(fast,slow):]`. -/
def EmaTrendBias.initFromCloses (st : EmaTrendBias) (closes : List ℚ) :
    EmaTrendBias :=
  if closes = [] ∨ closes.length < max st.cfg.fast_period st.cfg.slow_period
  then st
  else
    let a_fast := emaAlpha st.cfg.fast_period
    let a_slow := emaAlpha st.cfg.slow_period
    let rest := closes.drop (max st.cfg.fast_period st.cfg.slow_period)
    { st with
      ema_fast :=
        some (rest.foldl (fun e p => emaStep a_fast p e)
          (smaSeed closes st.cfg.fast_period))
      ema_slow :=
        some (rest.foldl (fun e p => emaStep a_slow p e)
          (smaSeed closes st.cfg.slow_period)) }

/-- Embeds `EmaTrendBias.on_closed_candle`. -/
def EmaTrendBias.on_closed_candle (st : EmaTrendBias)
    (close_price : ℚ) (close_ts_ms : ℤ) : EmaTrendBias :=
  match st.ema_fast, st.ema_slow with
  | some ef, some es =>
      { st with
        prev_ema_fast := some ef
        prev_ema_slow := some es
        ema_fast := some (emaStep (emaAlpha st.cfg.fast_period) close_price ef)
        ema_slow := some (emaStep (emaAlpha st.cfg.slow_period) close_price es)
        last_close := some close_price
        last_ts := some close_ts_ms }
  | _, _ => st

/-- The trend component of `get_bias`: `0` unless `ema_slow > 0` and the
fast/slow divergence percentage reaches `trend_threshold_pct`, else the sign
of the divergence. -/
def trendComponent (cfg : EmaConfig) (ema_fast ema_slow : ℚ) : ℚ :=
  if 0 < ema_slow then
    let diff_pct := (ema_fast - ema_slow) / ema_slow * 100
    if cfg.trend_threshold_pct ≤ |diff_pct| then
      (if 0 < diff_pct then 1 else -1)
    else 0
  else 0

/-- The slope component of `get_bias`: `0` when `prev_ema_fast` is absent or
nonpositive, else the relative fast-EMA slope scaled by 1000 and clipped to
`[-1, 1]`. -/
def slopeComponent (ema_fast : ℚ) (prev_ema_fast : Option ℚ) : ℚ :=
  match prev_ema_fast with
  | some pf =>
      if 0 < pf then max (-1) (min 1 ((ema_fast - pf) / pf * 1000)) else 0
  | none => 0

/-- Embeds `EmaTrendBias.get_bias`.  (`current_price` is accepted but, as in
the source, unused.) -/
def EmaTrendBias.get_bias (st : EmaTrendBias) (current_price : ℚ)
    (delta_sign_needed : ℤ) : ℚ :=
  match st.ema_fast, st.ema_slow with
  | some ef, some _es =>
      let trend := trendComponent st.cfg ef _es
      let slope := slopeComponent ef st.prev_ema_fast
      let ema_bias := (6 / 10 : ℚ) * (-trend * (delta_sign_needed : ℚ)) +
        (4 / 10) * (-slope * (delta_sign_needed : ℚ))
      if 1 < ema_bias then 1 else if ema_bias < -1 then -1 else ema_bias
  | _, _ => 0

/-! ## delta_engine.py -/

/-- One entry of the `coin` list inside a balance-query response:
`walletBalance` holds the already-parsed numeric value of the field (the
source's `float(v or 0)`). -/
structure CoinEntry where
  coin : String
  walletBalance : ℚ
deriving DecidableEq

/-- One account object of the balance-query response. -/
structure BalanceAccount where
  coin : List CoinEntry
deriving DecidableEq

/-- The balance-query response dict. -/
structure BalanceResp where
  retCode : ℤ
  list : List BalanceAccount
deriving DecidableEq

/-- One position object of the positions-query response: `size` and
`markPrice` hold the parsed numeric values (`float(... or 0)`). -/
structure PositionEntry where
  size : ℚ
  side : String
  markPrice : ℚ
deriving DecidableEq

/-- The positions-query response dict. -/
structure PositionsResp where
  retCode : ℤ
  list : List PositionEntry
deriving DecidableEq

/-- The exchange client as `DeltaEngine` observes it in one snapshot:
each query either raises (`Except.error`), returns a falsy response
(`Except.ok none`), or returns a dict (`Except.ok (some r)`). -/
structure ExchangeClient where
  coin_balance_resp : Except Unit (Option BalanceResp)
  positions_resp : Except Unit (Option PositionsResp)

/-- Embeds `DeltaEngine` (symbol bookkeeping plus a client). -/
structure DeltaEngine where
  client : ExchangeClient
  spot_symbol : String
  futures_symbol : String
  base_symbol : String
  desired_net_delta_base : ℚ

/-- Embeds the `DeltaSnapshot` dataclass. -/
structure DeltaSnapshot where
  spot_base : ℚ
  futures_base : ℚ
  net_base_delta : ℚ
  desired_net_delta_base : ℚ
deriving DecidableEq

/-- Embeds `DeltaEngine.get_spot_base`: sums `walletBalance` over every coin
entry matching `base_symbol` across all accounts; any raise, falsy response
or nonzero `retCode` leaves the accumulator at `0`. -/
def DeltaEngine.get_spot_base (e : DeltaEngine) : ℚ :=
  match e.client.coin_balance_resp with
  | .error _ => 0
  | .ok none => 0
  | .ok (some resp) =>
      if resp.retCode = 0 then
        resp.list.foldl (fun bal acct =>
          acct.coin.foldl (fun b c =>
            if c.coin = e.base_symbol then b + c.walletBalance else b) bal) 0
      else 0

/-- `signed = size if side == 'Buy' else -size if side == 'Sell' else 0.0`. -/
def signedSize (pos : PositionEntry) : ℚ :=
  if pos.side = "Buy" then pos.size
  else if pos.side = "Sell" then -pos.size
  else 0

/-- Embeds `DeltaEngine.get_futures_base`: returns the signed size of the
first listed position, or `0` on raise, falsy response, nonzero `retCode`,
empty position list, zero signed size, or a usable mark price `≤ 0` (the
argument when present, else the position's own `markPrice`). -/
def DeltaEngine.get_futures_base (e : DeltaEngine) (mark_price : Option ℚ) :
    ℚ :=
  match e.client.positions_resp with
  | .error _ => 0
  | .ok none => 0
  | .ok (some resp) =>
      if resp.retCode = 0 then
        match resp.list with
        | [] => 0
        | pos :: _ =>
            let signed := signedSize pos
            if signed = 0 then 0
            else
              let px := mark_price.getD pos.markPrice
              if px ≤ 0 then 0 else signed
      else 0

/-- Embeds `DeltaEngine.snapshot`. -/
def DeltaEngine.snapshot (e : DeltaEngine) (mark_price : Option ℚ) :
    DeltaSnapshot :=
  let spot_base := e.get_spot_base
  let futures_base := e.get_futures_base mark_price
  { spot_base := spot_base
    futures_base := futures_base
    net_base_delta := spot_base - futures_base
    desired_net_delta_base := e.desired_net_delta_base }

/-! ## recent_fills.py -/

/-- Embeds the `Fill` dataclass. -/
structure Fill where
  ts : ℚ
  side : String
  price : ℚ
  qty : ℚ
deriving DecidableEq

/-- The running sums accumulated by `RecentFillsAnchor._compute_vwaps`. -/
structure VwapAcc where
  buy_notional : ℚ
  buy_qty : ℚ
  sell_notional : ℚ
  sell_qty : ℚ
  net_imbalance_base : ℚ
deriving DecidableEq

/-- The loop body of `_compute_vwaps`: skips fills older than the cutoff,
accumulates buy sums for side `'Buy'` and sell sums otherwise. -/
def vwapStep (cutoff : ℚ) (acc : VwapAcc) (f : Fill) : VwapAcc :=
  if f.ts < cutoff then acc
  else if f.side = "Buy" then
    { acc with
      buy_notional := acc.buy_notional + f.price * f.qty
      buy_qty := acc.buy_qty + f.qty
      net_imbalance_base := acc.net_imbalance_base + f.qty }
  else
    { acc with
      sell_notional := acc.sell_notional + f.price * f.qty
      sell_qty := acc.sell_qty + f.qty
      net_imbalance_base := acc.net_imbalance_base - f.qty }

/-- Embeds `RecentFillsAnchor._compute_vwaps` with the current time made an
explicit argument: returns `(buy_vwap, sell_vwap, net_imbalance_base)`. -/
def computeVwaps (window_seconds now : ℚ) (fills : List Fill) :
    Option ℚ × Option ℚ × ℚ :=
  let cutoff := now - window_seconds
  let acc := fills.foldl (vwapStep cutoff) ⟨0, 0, 0, 0, 0⟩
  (if 0 < acc.buy_qty then some (acc.buy_notional / acc.buy_qty) else none,
   if 0 < acc.sell_qty then some (acc.sell_notional / acc.sell_qty) else none,
   acc.net_imbalance_base)

/-- Embeds `RecentFillsAnchor._prune_old`: pops fills from the front while
the front's timestamp is older than `now - window_seconds`. -/
def pruneOld (window_seconds now : ℚ) (fills : List Fill) : List Fill :=
  fills.dropWhile (fun f => decide (f.ts < now - window_seconds))

/-- The dict returned by `RecentFillsAnchor.get_anchor`. -/
structure Anchor where
  buy_vwap : Option ℚ
  sell_vwap : Option ℚ
  net_fill_imbalance_base : ℚ
  window_s : ℚ
  sample_count : ℕ
deriving DecidableEq

/-- The state of `RecentFillsAnchor` relevant to `get_anchor`: the window
length and the fills deque (polling state is not modelled). -/
structure RecentFillsAnchor where
  window_seconds : ℚ
  fills : List Fill
deriving DecidableEq

/-- Embeds `RecentFillsAnchor.get_anchor` with `now` explicit: prunes first,
then recomputes the VWAPs and imbalance; returns the anchor dict alongside
the pruned state. -/
def RecentFillsAnchor.get_anchor (a : RecentFillsAnchor) (now : ℚ) :
    Anchor × RecentFillsAnchor :=
  let pruned := pruneOld a.window_seconds now a.fills
  let v := computeVwaps a.window_seconds now pruned
  ({ buy_vwap := v.1
     sell_vwap := v.2.1
     net_fill_imbalance_base := v.2.2
     window_s := a.window_seconds
     sample_count :=
       (pruned.filter (fun f =>
         decide (now - a.window_seconds ≤ f.ts))).length },
   { a with fills := pruned })

/-! ## execution_spot.py -/

/-- An order-placement response dict (only `retCode` is inspected). -/
structure OrderResp where
  retCode : ℤ
deriving DecidableEq

/-- The fields of `ExecutionConfig` that `market` consults. -/
structure ExecutionConfig where
  profile : String
  min_trade_base : ℚ
  max_trade_base : ℚ
deriving DecidableEq

/-- Embeds `SpotExecutionEngine`: the client's `place_market_order` is a
function from `(side, qty)` to the response (`none` models a falsy
response). -/
structure SpotExecutionEngine where
  symbol : String
  cfg : ExecutionConfig
  place_market_order : String → ℚ → Option OrderResp

/-- Embeds `SpotExecutionEngine._clamp_qty`:
`max(min_trade_base, min(max_trade_base, abs(qty_base)))`. -/
def SpotExecutionEngine.clamp_qty (e : SpotExecutionEngine)
    (qty_base : ℚ) : ℚ :=
  max e.cfg.min_trade_base (min e.cfg.max_trade_base |qty_base|)

/-- Embeds `SpotExecutionEngine.market`: submits the clamped quantity and
reports acceptance; a clamped quantity `≤ 0` or a falsy/rejected response
yields `false`. -/
def SpotExecutionEngine.market (e : SpotExecutionEngine) (side : String)
    (qty_base : ℚ) : Bool :=
  let q := e.clamp_qty qty_base
  if q ≤ 0 then false
  else
    match e.place_market_order side q with
    | some r => decide (r.retCode = 0)
    | none => false

/-! ## Supporting lemmas -/

lemma clamp01_nonneg (x : ℚ) : 0 ≤ clamp01 x := le_max_left 0 _

lemma clamp01_le_one (x : ℚ) : clamp01 x ≤ 1 :=
  max_le (by norm_num) (min_le_left 1 x)

/-! ## Claims -/

/-- Claim C10: for every constructed policy (whatever `partial_ratio` was
passed, it is clamped into `[0,1]`), every `decide` call returns a target
with `|target_trade_base| ≤ |delta_gap_base|`: a full action trades exactly
the negated gap, a partial action at most the gap, and no action trades 0. -/
theorem C10_never_overcorrect (th : Thresholds) (r0 h0 : ℚ)
    (s : PolicyState) (gap eff_soft eff_hard : ℚ) :
    |((mkRebalancePolicy th r0 h0).decide s gap
        eff_soft eff_hard).1.target_trade_base| ≤ |gap| := by
  unfold RebalancePolicy.decide thresholdDecide
  split_ifs with h1 h2 h3
  · simp
  · simp [abs_neg]
  · have h4 : 0 ≤ clamp01 r0 := clamp01_nonneg r0
    have h5 : clamp01 r0 ≤ 1 := clamp01_le_one r0
    simp only [mkRebalancePolicy]
    rw [neg_mul, abs_neg, abs_mul, abs_of_nonneg h4]
    exact mul_le_of_le_one_left (abs_nonneg gap) h5
  · simp

/-- Claim C8: whenever `decide` returns action `'none'` — by not breaching a
threshold or by hysteresis suppression — the hysteresis state is unchanged
and the target is 0; the state is mutated only when a `'partial'` or
`'full'` action fires. -/
theorem C8_none_leaves_state_unchanged (p : RebalancePolicy) (s : PolicyState)
    (gap eff_soft eff_hard : ℚ) :
    ((p.decide s gap eff_soft eff_hard).1.action = "none" →
       (p.decide s gap eff_soft eff_hard).2 = s ∧
       (p.decide s gap eff_soft eff_hard).1.target_trade_base = 0) ∧
    ((p.decide s gap eff_soft eff_hard).2 ≠ s →
       (p.decide s gap eff_soft eff_hard).1.action = "partial" ∨
       (p.decide s gap eff_soft eff_hard).1.action = "full") := by
  unfold RebalancePolicy.decide thresholdDecide
  split_ifs with h1 h2 h3 <;> simp

/-- Claim C1: with a last fired action recorded at threshold magnitude `T`
on side `ls ∈ {+1,-1}`, a subsequent `decide` whose gap sign is `-ls`
returns `'none'` with target 0 whenever `|gap| < hysteresis_fraction * T`
(even if a threshold is crossed), and otherwise follows the normal threshold
cascade. -/
theorem C1_hysteresis_suppression (p : RebalancePolicy) (s : PolicyState)
    (gap eff_soft eff_hard T : ℚ) (ls : ℤ)
    (hT : s.last_action_threshold_used_abs = some T)
    (hside : s.last_action_side = some ls)
    (hls : ls = 1 ∨ ls = -1)
    (hopp : sideNeeded gap = -ls) :
    (|gap| < p.hysteresis_fraction * T →
       p.decide s gap eff_soft eff_hard =
         ({ action := "none", target_trade_base := 0 }, s)) ∧
    (p.hysteresis_fraction * T ≤ |gap| →
       p.decide s gap eff_soft eff_hard =
         thresholdDecide p s gap eff_soft eff_hard) := by
  have hne : (-ls : ℤ) ≠ 0 := by rcases hls with h | h <;> simp [h]
  constructor
  · intro h
    have hsup : hystSuppressed p s gap = true := by
      simp [hystSuppressed, hT, hside, hopp, hne, h]
    simp [RebalancePolicy.decide, hsup]
  · intro h
    have hsup : hystSuppressed p s gap = false := by
      simp [hystSuppressed, hT, hside, hopp, hne, not_lt.mpr h]
    simp [RebalancePolicy.decide, hsup]

def c1Policy : RebalancePolicy := mkRebalancePolicy ⟨ "base", 1, 2⟩ (1/2) (1/2)

def c1State : PolicyState :=
  { last_action_threshold_used_abs := some 2, last_action_side := some 1 }

/-- Witness for C1 at a concrete input: last action fired at threshold 2 on
side +1, now the gap is -1/2 (opposite side) and the hysteresis bound is
(1/2)*2 = 1. -/
theorem C1_hysteresis_suppression_witness :
    (|(-1/2 : ℚ)| < c1Policy.hysteresis_fraction * 2 →
       c1Policy.decide c1State (-1/2) 1 2 =
         ({ action := "none", target_trade_base := 0 }, c1State)) ∧
    (c1Policy.hysteresis_fraction * 2 ≤ |(-1/2 : ℚ)| →
       c1Policy.decide c1State (-1/2) 1 2 =
         thresholdDecide c1Policy c1State (-1/2) 1 2) :=
  C1_hysteresis_suppression c1Policy c1State (-1/2) 1 2 2 1 rfl rfl
    (Or.inl rfl) (by norm_num [sideNeeded])

/-- Claim C2: `decide` returns `'full'` exactly when `|gap| ≥ eff_hard > 0`
absent hysteresis suppression, and then `target_trade_base = -gap` exactly;
it returns `'partial'` exactly when the hard condition fails but
`|gap| ≥ eff_soft > 0` absent suppression, and then
`target_trade_base = -partial_ratio * gap`; in both cases the hysteresis
state becomes (threshold used, sign of the gap). -/
theorem C2_decision_targets (p : RebalancePolicy) (s : PolicyState)
    (gap eff_soft eff_hard : ℚ) :
    ((p.decide s gap eff_soft eff_hard).1.action = "full" ↔
       hystSuppressed p s gap = false ∧ eff_hard ≤ |gap| ∧ 0 < eff_hard) ∧
    ((p.decide s gap eff_soft eff_hard).1.action = "full" →
       (p.decide s gap eff_soft eff_hard).1.target_trade_base = -gap ∧
       (p.decide s gap eff_soft eff_hard).2 =
         { last_action_threshold_used_abs := some eff_hard,
           last_action_side := some (sideNeeded gap) }) ∧
    ((p.decide s gap eff_soft eff_hard).1.action = "partial" ↔
       hystSuppressed p s gap = false ∧
       ¬(eff_hard ≤ |gap| ∧ 0 < eff_hard) ∧
       eff_soft ≤ |gap| ∧ 0 < eff_soft) ∧
    ((p.decide s gap eff_soft eff_hard).1.action = "partial" →
       (p.decide s gap eff_soft eff_hard).1.target_trade_base =
         -p.partRatio * gap ∧
       (p.decide s gap eff_soft eff_hard).2 =
         { last_action_threshold_used_abs := some eff_soft,
           last_action_side := some (sideNeeded gap) }) := by
  unfold RebalancePolicy.decide thresholdDecide
  split_ifs with h1 h2 h3 <;> simp_all

def c2Policy : RebalancePolicy := mkRebalancePolicy ⟨ "base", 1, 2⟩ (1/2) (1/2)

/-- Witness for C2 at a concrete input: fresh state, gap 3 against soft 1
and hard 2 (a full breach). -/
theorem C2_decision_targets_witness :
    ((c2Policy.decide initialPolicyState 3 1 2).1.action = "full" ↔
       hystSuppressed c2Policy initialPolicyState 3 = false ∧
       (2:ℚ) ≤ |(3:ℚ)| ∧ (0:ℚ) < 2) ∧
    ((c2Policy.decide initialPolicyState 3 1 2).1.action = "full" →
       (c2Policy.decide initialPolicyState 3 1 2).1.target_trade_base = -3 ∧
       (c2Policy.decide initialPolicyState 3 1 2).2 =
         { last_action_threshold_used_abs := some 2,
           last_action_side := some (sideNeeded 3) }) ∧
    ((c2Policy.decide initialPolicyState 3 1 2).1.action = "partial" ↔
       hystSuppressed c2Policy initialPolicyState 3 = false ∧
       ¬((2:ℚ) ≤ |(3:ℚ)| ∧ (0:ℚ) < 2) ∧
       (1:ℚ) ≤ |(3:ℚ)| ∧ (0:ℚ) < 1) ∧
    ((c2Policy.decide initialPolicyState 3 1 2).1.action = "partial" →
       (c2Policy.decide initialPolicyState 3 1 2).1.target_trade_base =
         -c2Policy.partRatio * 3 ∧
       (c2Policy.decide initialPolicyState 3 1 2).2 =
         { last_action_threshold_used_abs := some 1,
           last_action_side := some (sideNeeded 3) }) :=
  C2_decision_targets c2Policy initialPolicyState 3 1 2

/-- Claim C3: for every input, with `bias_strength ∈ [0,1]` and
`combined_bias ∈ [-1,1]`, `compute_effective_thresholds` returns
`(eff_soft, eff_hard)` with `eff_hard ≥ eff_soft ≥ 0`, where `eff_soft` is
`base_soft * (1 + bs*cb)` floored at 0 and `eff_hard` is
`base_hard * (1 + 0.5*bs*cb)` raised to `eff_soft` when smaller. -/
theorem C3_effective_threshold_ordering (p : RebalancePolicy)
    (snq mp cb bs : ℚ) (hbs0 : 0 ≤ bs) (hbs1 : bs ≤ 1)
    (hcb0 : -1 ≤ cb) (hcb1 : cb ≤ 1) :
    0 ≤ (p.compute_effective_thresholds snq mp cb bs).1 ∧
    (p.compute_effective_thresholds snq mp cb bs).1 ≤
      (p.compute_effective_thresholds snq mp cb bs).2 ∧
    (p.compute_effective_thresholds snq mp cb bs).1 =
      max 0 (toBaseUnits p p.th.soft snq mp * (1 + bs * cb)) ∧
    (p.compute_effective_thresholds snq mp cb bs).2 =
      max (p.compute_effective_thresholds snq mp cb bs).1
        (toBaseUnits p p.th.hard snq mp * (1 + (1 / 2) * bs * cb)) := by
  have h1 : max (0:ℚ) (min 1 bs) = bs := by
    rw [min_eq_right hbs1, max_eq_right hbs0]
  have h2 : max (-1:ℚ) (min 1 cb) = cb := by
    rw [min_eq_right hcb1, max_eq_right hcb0]
  simp only [RebalancePolicy.compute_effective_thresholds, h1, h2]
  exact ⟨le_max_left _ _, le_max_left _ _, trivial, trivial⟩

/-- Witness for C3 at a concrete input: percent-unit thresholds, notional
1000, mark price 10, bias -1 at strength 1. -/
theorem C3_effective_threshold_ordering_witness :
    0 ≤ ((mkRebalancePolicy ⟨ "percent", 1/100, 1/50⟩ (1/2)
           (1/2)).compute_effective_thresholds 1000 10 (-1) 1).1 ∧
    ((mkRebalancePolicy ⟨ "percent", 1/100, 1/50⟩ (1/2)
       (1/2)).compute_effective_thresholds 1000 10 (-1) 1).1 ≤
      ((mkRebalancePolicy ⟨ "percent", 1/100, 1/50⟩ (1/2)
         (1/2)).compute_effective_thresholds 1000 10 (-1) 1).2 ∧
    ((mkRebalancePolicy ⟨ "percent", 1/100, 1/50⟩ (1/2)
       (1/2)).compute_effective_thresholds 1000 10 (-1) 1).1 =
      max 0 (toBaseUnits (mkRebalancePolicy ⟨ "percent", 1/100, 1/50⟩ (1/2)
        (1/2)) (mkRebalancePolicy ⟨ "percent", 1/100, 1/50⟩ (1/2)
        (1/2)).th.soft 1000 10 * (1 + 1 * (-1))) ∧
    ((mkRebalancePolicy ⟨ "percent", 1/100, 1/50⟩ (1/2)
       (1/2)).compute_effective_thresholds 1000 10 (-1) 1).2 =
      max ((mkRebalancePolicy ⟨ "percent", 1/100, 1/50⟩ (1/2)
        (1/2)).compute_effective_thresholds 1000 10 (-1) 1).1
        (toBaseUnits (mkRebalancePolicy ⟨ "percent", 1/100, 1/50⟩ (1/2)
          (1/2)) (mkRebalancePolicy ⟨ "percent", 1/100, 1/50⟩ (1/2)
          (1/2)).th.hard 1000 10 * (1 + (1 / 2) * 1 * (-1))) :=
  C3_effective_threshold_ordering
    (mkRebalancePolicy ⟨ "percent", 1/100, 1/50⟩ (1/2) (1/2)) 1000 10 (-1) 1
    (by norm_num) (by norm_num) (by norm_num) (by norm_num)

/-- Witness for C8 at a concrete input: fresh state, gap 0 against
thresholds 1 and 2 (no action). -/
theorem C8_none_leaves_state_unchanged_witness :
    (((mkRebalancePolicy ⟨ "base", 1, 2⟩ (1/2) (1/2)).decide
        initialPolicyState 0 1 2).1.action = "none" →
       ((mkRebalancePolicy ⟨ "base", 1, 2⟩ (1/2) (1/2)).decide
          initialPolicyState 0 1 2).2 = initialPolicyState ∧
       ((mkRebalancePolicy ⟨ "base", 1, 2⟩ (1/2) (1/2)).decide
          initialPolicyState 0 1 2).1.target_trade_base = 0) ∧
    (((mkRebalancePolicy ⟨ "base", 1, 2⟩ (1/2) (1/2)).decide
        initialPolicyState 0 1 2).2 ≠ initialPolicyState →
       ((mkRebalancePolicy ⟨ "base", 1, 2⟩ (1/2) (1/2)).decide
          initialPolicyState 0 1 2).1.action = "partial" ∨
       ((mkRebalancePolicy ⟨ "base", 1, 2⟩ (1/2) (1/2)).decide
          initialPolicyState 0 1 2).1.action = "full") :=
  C8_none_leaves_state_unchanged
    (mkRebalancePolicy ⟨ "base", 1, 2⟩ (1/2) (1/2)) initialPolicyState 0 1 2

/-- The seeding formula asserted by claim C4, following the spec's words:
for period `p`, the SMA of the first `p` closes advanced by the EMA
recursion over every close after the first `p` closes. -/
def claimSeededEma (closes : List ℚ) (period : ℕ) : ℚ :=
  (closes.drop period).foldl (fun e p => emaStep (emaAlpha period) p e)
    (smaSeed closes period)

def c4Cfg : EmaConfig :=
  { fast_period := 2, slow_period := 3, slope_lookback_s := 0,
    trend_threshold_pct := 0 }

/-- Counterexample to C4 as stated: with fast period 2, slow period 3 and
closes `[0, 0, 6, 12]`, the code's fast EMA is 8 (it advances only over
`closes[3:]`), while the claim's per-period formula gives 28/3 (advancing
over `closes[2:]`). -/
theorem C4_counterexample :
    ((mkEmaTrendBias c4Cfg).initFromCloses [0, 0, 6, 12]).ema_fast ≠
      some (claimSeededEma [0, 0, 6, 12] 2) := by
  have h1 : ((mkEmaTrendBias c4Cfg).initFromCloses [0, 0, 6, 12]).ema_fast =
      some 8 := by
    norm_num [EmaTrendBias.initFromCloses, mkEmaTrendBias, c4Cfg, smaSeed,
      emaStep, emaAlpha, ne_eq, List.cons_ne_nil]
  have h2 : claimSeededEma [0, 0, 6, 12] 2 = 28 / 3 := by
    norm_num [claimSeededEma, smaSeed, emaStep, emaAlpha]
  rw [h1, h2]
  intro hc
  rw [Option.some.injEq] at hc
  norm_num at hc

/-- Claim C4 (amended): `initFromCloses` is a no-op when fewer closes than
`max(fast_period, slow_period)` are supplied; otherwise each EMA is seeded
with the SMA of its own period's first closes and both are advanced by the
EMA recursion, in order, over every close after the first
`max(fast_period, slow_period)` closes. -/
theorem C4_ema_seeding (st : EmaTrendBias) (closes : List ℚ)
    (hfast : 0 < st.cfg.fast_period) (hslow : 0 < st.cfg.slow_period) :
    (closes.length < max st.cfg.fast_period st.cfg.slow_period →
       st.initFromCloses closes = st) ∧
    (max st.cfg.fast_period st.cfg.slow_period ≤ closes.length →
       st.initFromCloses closes =
         { st with
           ema_fast := some
             ((closes.drop (max st.cfg.fast_period st.cfg.slow_period)).foldl
               (fun e p => emaStep (emaAlpha st.cfg.fast_period) p e)
               (smaSeed closes st.cfg.fast_period))
           ema_slow := some
             ((closes.drop (max st.cfg.fast_period st.cfg.slow_period)).foldl
               (fun e p => emaStep (emaAlpha st.cfg.slow_period) p e)
               (smaSeed closes st.cfg.slow_period)) }) := by
  constructor
  · intro h
    unfold EmaTrendBias.initFromCloses
    rw [if_pos (Or.inr h)]
  · intro h
    have hne : closes ≠ [] := by
      intro hc
      subst hc
      simp only [List.length_nil, Nat.le_zero] at h
      have hle := le_max_left st.cfg.fast_period st.cfg.slow_period
      omega
    have hcond : ¬(closes = [] ∨
        closes.length < max st.cfg.fast_period st.cfg.slow_period) := by
      push_neg
      exact ⟨hne, h⟩
    unfold EmaTrendBias.initFromCloses
    rw [if_neg hcond]

/-- Witness for C4 at a concrete input: fast 2 / slow 3 with three closes
`[1, 2, 3]` (exactly the max of the periods, so seeding fires with no
fast-forward steps). -/
theorem C4_ema_seeding_witness :
    (([1, 2, 3] : List ℚ).length < max c4Cfg.fast_period c4Cfg.slow_period →
       (mkEmaTrendBias c4Cfg).initFromCloses [1, 2, 3] =
         mkEmaTrendBias c4Cfg) ∧
    (max c4Cfg.fast_period c4Cfg.slow_period ≤ ([1, 2, 3] : List ℚ).length →
       (mkEmaTrendBias c4Cfg).initFromCloses [1, 2, 3] =
         { mkEmaTrendBias c4Cfg with
           ema_fast := some
             ((([1, 2, 3] : List ℚ).drop
                 (max c4Cfg.fast_period c4Cfg.slow_period)).foldl
               (fun e p => emaStep (emaAlpha c4Cfg.fast_period) p e)
               (smaSeed [1, 2, 3] c4Cfg.fast_period))
           ema_slow := some
             ((([1, 2, 3] : List ℚ).drop
                 (max c4Cfg.fast_period c4Cfg.slow_period)).foldl
               (fun e p => emaStep (emaAlpha c4Cfg.slow_period) p e)
               (smaSeed [1, 2, 3] c4Cfg.slow_period)) }) := by
  have h := C4_ema_seeding (mkEmaTrendBias c4Cfg) [1, 2, 3]
    (by norm_num [c4Cfg, mkEmaTrendBias]) (by norm_num [c4Cfg, mkEmaTrendBias])
  exact h

/-- Claim C5: `get_bias` always returns a value in `[-1, 1]`; it returns
exactly 0 while unseeded; the trend component is 0 when `ema_slow ≤ 0` or
the divergence percentage is below `trend_threshold_pct`; the slope
component is 0 when `prev_ema_fast` is absent or nonpositive.  (In the
embedding `get_bias` is total, mirroring the source's guarding of both
divisions.) -/
theorem C5_bias_range (st : EmaTrendBias) (price : ℚ) (d : ℤ) :
    (-1 ≤ st.get_bias price d ∧ st.get_bias price d ≤ 1) ∧
    ((st.ema_fast = none ∨ st.ema_slow = none) → st.get_bias price d = 0) ∧
    (∀ ef es : ℚ,
       es ≤ 0 ∨ |(ef - es) / es * 100| < st.cfg.trend_threshold_pct →
       trendComponent st.cfg ef es = 0) ∧
    (∀ ef : ℚ, st.prev_ema_fast = none →
       slopeComponent ef st.prev_ema_fast = 0) ∧
    (∀ ef pf : ℚ, st.prev_ema_fast = some pf → pf ≤ 0 →
       slopeComponent ef st.prev_ema_fast = 0) := by
  refine ⟨?_, ?_, ?_, ?_, ?_⟩
  · rcases hf : st.ema_fast with _ | ef <;>
      rcases hs : st.ema_slow with _ | es <;>
      simp only [EmaTrendBias.get_bias, hf, hs]
    · norm_num
    · norm_num
    · norm_num
    · split_ifs with h1 h2 <;> constructor <;> linarith
  · intro h
    rcases hf : st.ema_fast with _ | ef <;>
      rcases hs : st.ema_slow with _ | es <;>
      simp_all [EmaTrendBias.get_bias]
  · intro ef es h
    simp only [trendComponent]
    rcases h with h | h
    · rw [if_neg (not_lt.mpr h)]
    · split_ifs with h1 h2 h3 <;> first | rfl | linarith
  · intro ef h
    rw [h]
    rfl
  · intro ef pf h hpf
    rw [h]
    simp only [slopeComponent]
    rw [if_neg (not_lt.mpr hpf)]

def c5State : EmaTrendBias :=
  { cfg := { fast_period := 2, slow_period := 3, slope_lookback_s := 0,
             trend_threshold_pct := 1 }
    ema_fast := some 2, ema_slow := some 1, last_close := none,
    last_ts := none, prev_ema_fast := some 1, prev_ema_slow := none }

/-- Witness for C5 at a concrete input: a seeded state queried at price 5
with direction +1. -/
theorem C5_bias_range_witness :
    (-1 ≤ c5State.get_bias 5 1 ∧ c5State.get_bias 5 1 ≤ 1) ∧
    ((c5State.ema_fast = none ∨ c5State.ema_slow = none) →
       c5State.get_bias 5 1 = 0) ∧
    (∀ ef es : ℚ,
       es ≤ 0 ∨ |(ef - es) / es * 100| < c5State.cfg.trend_threshold_pct →
       trendComponent c5State.cfg ef es = 0) ∧
    (∀ ef : ℚ, c5State.prev_ema_fast = none →
       slopeComponent ef c5State.prev_ema_fast = 0) ∧
    (∀ ef pf : ℚ, c5State.prev_ema_fast = some pf → pf ≤ 0 →
       slopeComponent ef c5State.prev_ema_fast = 0) :=
  C5_bias_range c5State 5 1

/-- Claim C6: failed/rejected balance reads yield `get_spot_base = 0`;
failed/rejected position reads, an empty position list, a zero signed size,
or a usable mark price `≤ 0` yield `get_futures_base = 0`; and `snapshot`
always returns the record whose `net_base_delta` is
`get_spot_base - get_futures_base` (so a failed leg contributes 0 and the
other leg whatever it read; in the embedding `snapshot` is total). -/
theorem C6_snapshot_fail_open (e : DeltaEngine) (mp : Option ℚ) :
    (∀ u : Unit, e.client.coin_balance_resp = .error u →
       e.get_spot_base = 0) ∧
    (e.client.coin_balance_resp = .ok none → e.get_spot_base = 0) ∧
    (∀ r, e.client.coin_balance_resp = .ok (some r) → r.retCode ≠ 0 →
       e.get_spot_base = 0) ∧
    (∀ u : Unit, e.client.positions_resp = .error u →
       e.get_futures_base mp = 0) ∧
    (e.client.positions_resp = .ok none → e.get_futures_base mp = 0) ∧
    (∀ r, e.client.positions_resp = .ok (some r) → r.retCode ≠ 0 →
       e.get_futures_base mp = 0) ∧
    (∀ r, e.client.positions_resp = .ok (some r) → r.list = [] →
       e.get_futures_base mp = 0) ∧
    (∀ r pos rest, e.client.positions_resp = .ok (some r) →
       r.list = pos :: rest → signedSize pos = 0 →
       e.get_futures_base mp = 0) ∧
    (∀ r pos rest, e.client.positions_resp = .ok (some r) →
       r.list = pos :: rest → mp.getD pos.markPrice ≤ 0 →
       e.get_futures_base mp = 0) ∧
    (e.snapshot mp =
       { spot_base := e.get_spot_base
         futures_base := e.get_futures_base mp
         net_base_delta := e.get_spot_base - e.get_futures_base mp
         desired_net_delta_base := e.desired_net_delta_base }) := by
  refine ⟨?_, ?_, ?_, ?_, ?_, ?_, ?_, ?_, ?_, rfl⟩
  · intro u h
    simp [DeltaEngine.get_spot_base, h]
  · intro h
    simp [DeltaEngine.get_spot_base, h]
  · intro r h hr
    simp [DeltaEngine.get_spot_base, h, hr]
  · intro u h
    simp [DeltaEngine.get_futures_base, h]
  · intro h
    simp [DeltaEngine.get_futures_base, h]
  · intro r h hr
    simp [DeltaEngine.get_futures_base, h, hr]
  · intro r h hl
    simp [DeltaEngine.get_futures_base, h, hl]
  · intro r pos rest h hl hsig
    simp [DeltaEngine.get_futures_base, h, hl, hsig]
  · intro r pos rest h hl hpx
    by_cases hsig : signedSize pos = 0
    · simp [DeltaEngine.get_futures_base, h, hl, hsig]
    · simp [DeltaEngine.get_futures_base, h, hl, hsig, hpx]

def c6Engine : DeltaEngine :=
  { client := { coin_balance_resp := .error (), positions_resp := .error () }
    spot_symbol := "XRPUSDT", futures_symbol := "XRPUSDT",
    base_symbol := "XRP", desired_net_delta_base := 0 }

/-- Witness for C6 at a concrete input: both exchange queries raise. -/
theorem C6_snapshot_fail_open_witness :
    (∀ u : Unit, c6Engine.client.coin_balance_resp = .error u →
       c6Engine.get_spot_base = 0) ∧
    (c6Engine.client.coin_balance_resp = .ok none →
       c6Engine.get_spot_base = 0) ∧
    (∀ r, c6Engine.client.coin_balance_resp = .ok (some r) → r.retCode ≠ 0 →
       c6Engine.get_spot_base = 0) ∧
    (∀ u : Unit, c6Engine.client.positions_resp = .error u →
       c6Engine.get_futures_base none = 0) ∧
    (c6Engine.client.positions_resp = .ok none →
       c6Engine.get_futures_base none = 0) ∧
    (∀ r, c6Engine.client.positions_resp = .ok (some r) → r.retCode ≠ 0 →
       c6Engine.get_futures_base none = 0) ∧
    (∀ r, c6Engine.client.positions_resp = .ok (some r) → r.list = [] →
       c6Engine.get_futures_base none = 0) ∧
    (∀ r pos rest, c6Engine.client.positions_resp = .ok (some r) →
       r.list = pos :: rest → signedSize pos = 0 →
       c6Engine.get_futures_base none = 0) ∧
    (∀ r pos rest, c6Engine.client.positions_resp = .ok (some r) →
       r.list = pos :: rest → Option.getD none pos.markPrice ≤ 0 →
       c6Engine.get_futures_base none = 0) ∧
    (c6Engine.snapshot none =
       { spot_base := c6Engine.get_spot_base
         futures_base := c6Engine.get_futures_base none
         net_base_delta :=
           c6Engine.get_spot_base - c6Engine.get_futures_base none
         desired_net_delta_base := c6Engine.desired_net_delta_base }) :=
  C6_snapshot_fail_open c6Engine none

/-- Claim C9: `market` submits the quantity
`max(min_trade_base, min(max_trade_base, |qty_base|))` — inside
`[min_trade_base, max_trade_base]` whenever that interval is nonempty —
returns false when the clamped quantity is `≤ 0`, and returns true exactly
when the clamped quantity is positive and the submission is accepted
(a response is present with `retCode = 0`); a rejected submission yields
`false`, not an exception (the embedding is total). -/
theorem C9_market_clamp (e : SpotExecutionEngine) (side : String) (q0 : ℚ)
    (hmm : e.cfg.min_trade_base ≤ e.cfg.max_trade_base) :
    (e.cfg.min_trade_base ≤ e.clamp_qty q0 ∧
       e.clamp_qty q0 ≤ e.cfg.max_trade_base) ∧
    (e.clamp_qty q0 ≤ 0 → e.market side q0 = false) ∧
    (e.market side q0 = true ↔
       0 < e.clamp_qty q0 ∧
       ∃ r, e.place_market_order side (e.clamp_qty q0) = some r ∧
         r.retCode = 0) := by
  refine ⟨⟨le_max_left _ _, max_le hmm (min_le_left _ _)⟩, ?_, ?_⟩
  · intro h
    simp only [SpotExecutionEngine.market]
    rw [if_pos h]
  · by_cases hq : e.clamp_qty q0 ≤ 0
    · refine iff_of_false ?_ ?_
      · simp only [SpotExecutionEngine.market]
        rw [if_pos hq]
        simp
      · rintro ⟨h1, -⟩
        exact absurd h1 (not_lt.mpr hq)
    · have hq2 : 0 < e.clamp_qty q0 := not_le.mp hq
      have hm : e.market side q0 =
          match e.place_market_order side (e.clamp_qty q0) with
          | some r => decide (r.retCode = 0)
          | none => false := by
        simp only [SpotExecutionEngine.market]
        rw [if_neg hq]
      rw [hm]
      rcases hr : e.place_market_order side (e.clamp_qty q0) with _ | r
      · simp
      · simp [hq2]

def c9Engine : SpotExecutionEngine :=
  { symbol := "XRPUSDT"
    cfg := { profile := "standard", min_trade_base := 1, max_trade_base := 2 }
    place_market_order := fun _ _ => some { retCode := 0 } }

/-- Witness for C9 at a concrete input: bounds `[1, 2]`, requested quantity
5 (clamped to 2), an accepting client. -/
theorem C9_market_clamp_witness :
    (c9Engine.cfg.min_trade_base ≤ c9Engine.clamp_qty 5 ∧
       c9Engine.clamp_qty 5 ≤ c9Engine.cfg.max_trade_base) ∧
    (c9Engine.clamp_qty 5 ≤ 0 → c9Engine.market "Buy" 5 = false) ∧
    (c9Engine.market "Buy" 5 = true ↔
       0 < c9Engine.clamp_qty 5 ∧
       ∃ r, c9Engine.place_market_order "Buy" (c9Engine.clamp_qty 5) =
             some r ∧ r.retCode = 0) :=
  C9_market_clamp c9Engine "Buy" 5 (by norm_num [c9Engine])

/-- Sum of quantities over a list of fills. -/
def qtySum (l : List Fill) : ℚ := (l.map (fun f => f.qty)).sum

/-- Sum of `price * qty` over a list of fills. -/
def notionalSum (l : List Fill) : ℚ := (l.map (fun f => f.price * f.qty)).sum

/-- The fills whose timestamp is at or after the cutoff (in-window). -/
def inWindowFills (cutoff : ℚ) (fills : List Fill) : List Fill :=
  fills.filter (fun f => decide (cutoff ≤ f.ts))

/-- The fills with side `'Buy'`. -/
def buyFills (l : List Fill) : List Fill :=
  l.filter (fun f => decide (f.side = "Buy"))

/-- The fills whose side is not `'Buy'` (the source's `else` branch). -/
def nonBuyFills (l : List Fill) : List Fill :=
  l.filter (fun f => decide (¬f.side = "Buy"))

/-- The fills with side `'Sell'`. -/
def sellFills (l : List Fill) : List Fill :=
  l.filter (fun f => decide (f.side = "Sell"))

lemma foldl_vwapStep (cutoff : ℚ) (fills : List Fill) (acc : VwapAcc) :
    fills.foldl (vwapStep cutoff) acc =
      { buy_notional := acc.buy_notional +
          notionalSum (buyFills (inWindowFills cutoff fills))
        buy_qty := acc.buy_qty + qtySum (buyFills (inWindowFills cutoff fills))
        sell_notional := acc.sell_notional +
          notionalSum (nonBuyFills (inWindowFills cutoff fills))
        sell_qty := acc.sell_qty +
          qtySum (nonBuyFills (inWindowFills cutoff fills))
        net_imbalance_base := acc.net_imbalance_base +
          qtySum (buyFills (inWindowFills cutoff fills)) -
          qtySum (nonBuyFills (inWindowFills cutoff fills)) } := by
  induction fills generalizing acc with
  | nil =>
    simp [inWindowFills, buyFills, nonBuyFills, qtySum, notionalSum]
  | cons f t ih =>
    rw [List.foldl_cons, ih]
    by_cases hts : f.ts < cutoff
    · have hnot : ¬cutoff ≤ f.ts := not_le.mpr hts
      simp [vwapStep, hts, hnot, inWindowFills, List.filter_cons]
    · have hin : cutoff ≤ f.ts := not_lt.mp hts
      by_cases hside : f.side = "Buy"
      · simp [vwapStep, hts, hin, hside, inWindowFills, buyFills, nonBuyFills,
          List.filter_cons, qtySum, notionalSum, VwapAcc.mk.injEq]
        refine ⟨by ring, by ring, by ring⟩
      · simp [vwapStep, hts, hin, hside, inWindowFills, buyFills, nonBuyFills,
          List.filter_cons, qtySum, notionalSum, VwapAcc.mk.injEq]
        refine ⟨by ring, by ring, by ring⟩

lemma inWindowFills_pruneOld (w now : ℚ) (l : List Fill) :
    inWindowFills (now - w) (pruneOld w now l) = inWindowFills (now - w) l := by
  induction l with
  | nil => rfl
  | cons f t ih =>
    by_cases h : f.ts < now - w
    · have hnot : ¬(now - w) ≤ f.ts := not_le.mpr h
      have hstep : pruneOld w now (f :: t) = pruneOld w now t := by
        simp [pruneOld, List.dropWhile_cons, h]
      have hfil : inWindowFills (now - w) (f :: t) =
          inWindowFills (now - w) t := by
        simp only [inWindowFills, List.filter_cons]
        rw [if_neg (by simpa using hnot)]
      rw [hstep, hfil]
      exact ih
    · have hstep : pruneOld w now (f :: t) = f :: t := by
        simp [pruneOld, List.dropWhile_cons, h]
      rw [hstep]

lemma qtySum_pos (l : List Fill) (h : ∀ f ∈ l, 0 < f.qty) (hne : l ≠ []) :
    0 < qtySum l := by
  apply List.sum_pos
  · intro x hx
    rcases List.mem_map.mp hx with ⟨f, hf, rfl⟩
    exact h f hf
  · simpa using hne

/-- Claim C7: `get_anchor` reports `buy_vwap` as the quantity-weighted
average price of the in-window Buy fills (null when there is none),
symmetrically `sell_vwap` over Sell fills, and `net_fill_imbalance_base` as
in-window Buy quantity minus Sell quantity; fills older than
`window_seconds` before `now` contribute to none of the three.  The
hypotheses state the invariants the source enforces at insertion (sides are
`'Buy'`/`'Sell'`, quantities positive). -/
theorem C7_anchor_aggregates (a : RecentFillsAnchor) (now : ℚ)
    (hside : ∀ f ∈ a.fills, f.side = "Buy" ∨ f.side = "Sell")
    (hqty : ∀ f ∈ a.fills, 0 < f.qty) :
    (buyFills (inWindowFills (now - a.window_seconds) a.fills) = [] →
       (a.get_anchor now).1.buy_vwap = none) ∧
    (buyFills (inWindowFills (now - a.window_seconds) a.fills) ≠ [] →
       (a.get_anchor now).1.buy_vwap = some
         (notionalSum
            (buyFills (inWindowFills (now - a.window_seconds) a.fills)) /
          qtySum
            (buyFills (inWindowFills (now - a.window_seconds) a.fills)))) ∧
    (sellFills (inWindowFills (now - a.window_seconds) a.fills) = [] →
       (a.get_anchor now).1.sell_vwap = none) ∧
    (sellFills (inWindowFills (now - a.window_seconds) a.fills) ≠ [] →
       (a.get_anchor now).1.sell_vwap = some
         (notionalSum
            (sellFills (inWindowFills (now - a.window_seconds) a.fills)) /
          qtySum
            (sellFills (inWindowFills (now - a.window_seconds) a.fills)))) ∧
    (a.get_anchor now).1.net_fill_imbalance_base =
      qtySum (buyFills (inWindowFills (now - a.window_seconds) a.fills)) -
      qtySum (sellFills (inWindowFills (now - a.window_seconds) a.fills)) := by
  have hsubW : ∀ f ∈ inWindowFills (now - a.window_seconds) a.fills,
      f ∈ a.fills := fun f hf => (List.mem_filter.mp hf).1
  have hnb : nonBuyFills (inWindowFills (now - a.window_seconds) a.fills) =
      sellFills (inWindowFills (now - a.window_seconds) a.fills) := by
    unfold nonBuyFills sellFills
    apply List.filter_congr
    intro f hf
    rcases hside f (hsubW f hf) with h | h <;> simp [h]
  have hfold : (pruneOld a.window_seconds now a.fills).foldl
      (vwapStep (now - a.window_seconds)) ⟨0, 0, 0, 0, 0⟩ =
      { buy_notional := notionalSum
          (buyFills (inWindowFills (now - a.window_seconds) a.fills))
        buy_qty := qtySum
          (buyFills (inWindowFills (now - a.window_seconds) a.fills))
        sell_notional := notionalSum
          (sellFills (inWindowFills (now - a.window_seconds) a.fills))
        sell_qty := qtySum
          (sellFills (inWindowFills (now - a.window_seconds) a.fills))
        net_imbalance_base :=
          qtySum (buyFills (inWindowFills (now - a.window_seconds) a.fills)) -
          qtySum (sellFills (inWindowFills (now - a.window_seconds)
            a.fills)) } := by
    rw [foldl_vwapStep, inWindowFills_pruneOld, hnb]
    simp
  have hbv : (a.get_anchor now).1.buy_vwap =
      (if 0 < qtySum (buyFills (inWindowFills (now - a.window_seconds)
          a.fills))
       then some (notionalSum (buyFills (inWindowFills
          (now - a.window_seconds) a.fills)) /
         qtySum (buyFills (inWindowFills (now - a.window_seconds) a.fills)))
       else none) := by
    simp only [RecentFillsAnchor.get_anchor, computeVwaps, hfold]
  have hsv : (a.get_anchor now).1.sell_vwap =
      (if 0 < qtySum (sellFills (inWindowFills (now - a.window_seconds)
          a.fills))
       then some (notionalSum (sellFills (inWindowFills
          (now - a.window_seconds) a.fills)) /
         qtySum (sellFills (inWindowFills (now - a.window_seconds) a.fills)))
       else none) := by
    simp only [RecentFillsAnchor.get_anchor, computeVwaps, hfold]
  have hmem_buy : ∀ f ∈ buyFills (inWindowFills (now - a.window_seconds)
      a.fills), 0 < f.qty := by
    intro f hf
    exact hqty f (hsubW f (List.mem_filter.mp hf).1)
  have hmem_sell : ∀ f ∈ sellFills (inWindowFills (now - a.window_seconds)
      a.fills), 0 < f.qty := by
    intro f hf
    exact hqty f (hsubW f (List.mem_filter.mp hf).1)
  refine ⟨?_, ?_, ?_, ?_, ?_⟩
  · intro h
    rw [hbv, h]
    simp [qtySum]
  · intro h
    rw [hbv, if_pos (qtySum_pos _ hmem_buy h)]
  · intro h
    rw [hsv, h]
    simp [qtySum]
  · intro h
    rw [hsv, if_pos (qtySum_pos _ hmem_sell h)]
  · simp only [RecentFillsAnchor.get_anchor, computeVwaps, hfold]

def c7Anchor : RecentFillsAnchor :=
  { window_seconds := 600
    fills := [{ ts := 100, side := "Buy", price := 10, qty := 2 },
              { ts := 700, side := "Buy", price := 12, qty := 1 },
              { ts := 800, side := "Sell", price := 11, qty := 3 }] }

/-- Witness for C7 at a concrete input: a 600-second window queried at time
1000, holding one stale Buy fill (ts 100) and one in-window fill per side. -/
theorem C7_anchor_aggregates_witness :
    (buyFills (inWindowFills (1000 - c7Anchor.window_seconds)
        c7Anchor.fills) = [] →
       (c7Anchor.get_anchor 1000).1.buy_vwap = none) ∧
    (buyFills (inWindowFills (1000 - c7Anchor.window_seconds)
        c7Anchor.fills) ≠ [] →
       (c7Anchor.get_anchor 1000).1.buy_vwap = some
         (notionalSum (buyFills (inWindowFills
            (1000 - c7Anchor.window_seconds) c7Anchor.fills)) /
          qtySum (buyFills (inWindowFills
            (1000 - c7Anchor.window_seconds) c7Anchor.fills)))) ∧
    (sellFills (inWindowFills (1000 - c7Anchor.window_seconds)
        c7Anchor.fills) = [] →
       (c7Anchor.get_anchor 1000).1.sell_vwap = none) ∧
    (sellFills (inWindowFills (1000 - c7Anchor.window_seconds)
        c7Anchor.fills) ≠ [] →
       (c7Anchor.get_anchor 1000).1.sell_vwap = some
         (notionalSum (sellFills (inWindowFills
            (1000 - c7Anchor.window_seconds) c7Anchor.fills)) /
          qtySum (sellFills (inWindowFills
            (1000 - c7Anchor.window_seconds) c7Anchor.fills)))) ∧
    (c7Anchor.get_anchor 1000).1.net_fill_imbalance_base =
      qtySum (buyFills (inWindowFills (1000 - c7Anchor.window_seconds)
        c7Anchor.fills)) -
      qtySum (sellFills (inWindowFills (1000 - c7Anchor.window_seconds)
        c7Anchor.fills)) :=
  C7_anchor_aggregates c7Anchor 1000
    (by
      intro f hf
      simp only [c7Anchor, List.mem_cons, List.not_mem_nil, or_false] at hf
      rcases hf with rfl | rfl | rfl <;> simp)
    (by
      intro f hf
      simp only [c7Anchor, List.mem_cons, List.not_mem_nil, or_false] at hf
      rcases hf with rfl | rfl | rfl <;> norm_num)
